import Mathlib

/-!
Shallow embedding of the watch-rust-errors core (src/rust.rs, src/cargo.rs,
src/watcher.rs) and proofs about it.

Conventions of the embedding:
* Strings are modelled by Lean String; the character-level work is done on
  List Char (the data field of String).
* The two regular expressions of rust.rs,
    REGEX_ERR     = (error|warning)(\[(E[0-9]+)\])?: (.*)
    REGEX_CONTEXT = " +--> ([^:]+):([0-9]+):([0-9]+)"
  are modelled by explicit matching functions with the leftmost-match,
  leftmost-first-alternation and greedy-quantifier semantics of the regex
  crate, specialised to these two patterns (see headerMatchFrom and
  contextMatchFrom below).
* Rust u32 parsing (str::parse followed by expect) is modelled by digitsVal
  together with an explicit bound check against 4294967295 = 2^32 - 1; an
  out-of-range value is a panic, which is kept distinct from a recoverable
  Err through the PResult type.
* Process spawning and filesystem watching are I/O and are not embedded;
  the exit status, the captured stderr text and the outcome of one run are
  passed to the embedded functions as explicit arguments.
-/

/-- Outcome of a fallible Rust computation: Ok, a recoverable Err (String,
as in the source), or a panic (from expect / unwrap). -/
inductive PResult (α : Type) where
  | ok (a : α)
  | err (e : String)
  | panicked (e : String)
deriving DecidableEq, Repr

/-- Models enum Type of src/rust.rs (Error | Warning); named DiagType because
Type is a Lean keyword. -/
inductive DiagType where
  | Error
  | Warning
deriving DecidableEq, BEq, Repr

/-- Display for Type in src/rust.rs. -/
def DiagType.render : DiagType → String
  | .Error => "error"
  | .Warning => "warning"

/-- Models struct RustDiagnostic of src/rust.rs.  The u32 fields line and
column are modelled as Nat; parsing enforces the u32 range explicitly. -/
structure RustDiagnostic where
  type_ : DiagType
  num : Option String
  message : String
  file : Option String
  line : Option Nat
  column : Option Nat
  details : Option String
deriving DecidableEq, Repr

/-- Models struct CompileResult of src/cargo.rs. -/
structure CompileResult where
  success : Bool
  errors : List RustDiagnostic
  warnings : List RustDiagnostic
deriving DecidableEq, Repr

/- ------------------------------------------------------------------ -/
/- Character-list utilities used by the regex and line models.         -/
/- ------------------------------------------------------------------ -/

/-- Strip a literal pattern from the front of a list: some rest when the
pattern is a prefix, none otherwise. -/
def stripP : List Char → List Char → Option (List Char)
  | [], l => some l
  | _ :: _, [] => none
  | p :: ps, c :: cs => if p = c then stripP ps cs else none

/-- Greedy span of a character predicate: the maximal prefix satisfying p,
together with the remainder. -/
def spanCh (p : Char → Bool) : List Char → List Char × List Char
  | [] => ([], [])
  | c :: r =>
    if p c then
      let s := spanCh p r
      (c :: s.1, s.2)
    else ([], c :: r)

/-- Drop a maximal run of spaces. -/
def dropSpaces : List Char → List Char
  | [] => []
  | c :: r => if c = ' ' then dropSpaces r else c :: r

/-- Split at the first newline: some (before, after) or none when there is
no newline. -/
def splitAtNewline : List Char → Option (List Char × List Char)
  | [] => none
  | c :: r =>
    if c = '\n' then some ([], r)
    else
      match splitAtNewline r with
      | none => none
      | some (a, b) => some (c :: a, b)

/-- Models str::splitn(3, the newline character) of src/rust.rs line 114:
at most three pieces, the last piece keeping any further newlines. -/
def splitn3 (s : List Char) : List (List Char) :=
  match splitAtNewline s with
  | none => [s]
  | some (a, r) =>
    match splitAtNewline r with
    | none => [a, r]
    | some (b, r2) => [a, b, r2]

/-- Decimal digit character for a value below ten (u32 formatting helper). -/
def digitChar : Nat → Char
  | 0 => '0'
  | 1 => '1'
  | 2 => '2'
  | 3 => '3'
  | 4 => '4'
  | 5 => '5'
  | 6 => '6'
  | 7 => '7'
  | 8 => '8'
  | 9 => '9'
  | _ => '*'

/-- Decimal formatting of a Nat (models u32::to_string used by the Display
implementation), accumulating digits from the least significant end. -/
def natReprAux (n : Nat) (acc : List Char) : List Char :=
  let acc' := digitChar (n % 10) :: acc
  if _h : n < 10 then acc' else natReprAux (n / 10) acc'
termination_by n
decreasing_by
  exact Nat.div_lt_self (by omega) (by omega)

/-- Decimal digit list of a Nat. -/
def natReprL (n : Nat) : List Char :=
  natReprAux n []

/-- Decimal string of a Nat. -/
def natRepr (n : Nat) : String :=
  ⟨natReprL n⟩

/-- Numeric value of a digit list with an initial accumulator (models the
value computed by str::parse on a digit-only string). -/
def digitsValFrom (a : Nat) (l : List Char) : Nat :=
  l.foldl (fun x c => x * 10 + (c.toNat - 48)) a

/-- Numeric value of a digit list. -/
def digitsVal (l : List Char) : Nat :=
  digitsValFrom 0 l

/- ------------------------------------------------------------------ -/
/- Model of REGEX_ERR (the header line pattern).                       -/
/- ------------------------------------------------------------------ -/

/-- Characters of the Display form of a diagnostic kind. -/
def kindChars : DiagType → List Char
  | .Error => "error".data
  | .Warning => "warning".data

/-- The optional code group of REGEX_ERR: a bracketed E followed by a
nonempty greedy digit run, then a closing bracket.  Returns the captured
group-3 text (E plus digits) and the remainder. -/
def codeGroup : List Char → Option (List Char × List Char)
  | '[' :: 'E' :: r2 =>
    let s := spanCh Char.isDigit r2
    if s.1.isEmpty then none
    else
      match s.2 with
      | ']' :: r4 => some ('E' :: s.1, r4)
      | _ => none
  | _ => none

/-- Continuation of a REGEX_ERR match after the kind alternation: first try
the optional code group (preferred by the engine), backtracking to the
group-absent reading when the following literal colon-space fails; group 4
is the rest of the line. -/
def afterKind (t : DiagType) (r : List Char) : Option (DiagType × Option (List Char) × List Char) :=
  match codeGroup r with
  | some (code, r2) =>
    match stripP ": ".data r2 with
    | some msg => some (t, some code, msg)
    | none =>
      match stripP ": ".data r with
      | some msg => some (t, none, msg)
      | none => none
  | none =>
    match stripP ": ".data r with
    | some msg => some (t, none, msg)
    | none => none

/-- A REGEX_ERR match attempt anchored at the head of the list.  The two
alternation branches start with distinct characters, so at most one kind
can match at a given position. -/
def headerMatchHere (l : List Char) : Option (DiagType × Option (List Char) × List Char) :=
  match stripP "error".data l with
  | some r => afterKind .Error r
  | none =>
    match stripP "warning".data l with
    | some r => afterKind .Warning r
    | none => none

/-- Leftmost REGEX_ERR match on a newline-free line, as Regex::captures
computes it: try each start position from the left. -/
def headerMatchFrom : List Char → Option (DiagType × Option (List Char) × List Char)
  | [] => none
  | c :: r =>
    match headerMatchHere (c :: r) with
    | some x => some x
    | none => headerMatchFrom r

/- ------------------------------------------------------------------ -/
/- Model of REGEX_CONTEXT (the location line pattern).                 -/
/- ------------------------------------------------------------------ -/

/-- Tail of a REGEX_CONTEXT match after the arrow: a nonempty greedy
non-colon run (the file), a colon, a nonempty greedy digit run (the line),
a colon, and a nonempty greedy digit run (the column); trailing characters
are ignored because the pattern is unanchored. -/
def ctxTail (u : List Char) : Option (List Char × List Char × List Char) :=
  let f := spanCh (fun c => c != ':') u
  if f.1.isEmpty then none
  else
    match f.2 with
    | ':' :: u2 =>
      let d1 := spanCh Char.isDigit u2
      if d1.1.isEmpty then none
      else
        match d1.2 with
        | ':' :: u4 =>
          let d2 := spanCh Char.isDigit u4
          if d2.1.isEmpty then none else some (f.1, d1.1, d2.1)
        | _ => none
    | _ => none

/-- A REGEX_CONTEXT match attempt anchored at the head of the list: at
least one space (greedily a maximal run, which is forced because the next
literal is a dash), the arrow literal, then the file:line:column tail. -/
def contextMatchHere (l : List Char) : Option (List Char × List Char × List Char) :=
  match l with
  | ' ' :: rest =>
    match stripP "--> ".data (dropSpaces rest) with
    | some u => ctxTail u
    | none => none
  | _ => none

/-- Leftmost REGEX_CONTEXT match on a newline-free line. -/
def contextMatchFrom : List Char → Option (List Char × List Char × List Char)
  | [] => none
  | c :: r =>
    match contextMatchHere (c :: r) with
    | some x => some x
    | none => contextMatchFrom r

/- ------------------------------------------------------------------ -/
/- FromStr and Display for RustDiagnostic (src/rust.rs).               -/
/- ------------------------------------------------------------------ -/

/-- Models impl FromStr for RustDiagnostic (src/rust.rs lines 107-151) on
the character list of the input: split into at most three pieces at
newlines; match REGEX_ERR on the first piece (error otherwise); when a
second nonempty piece exists it must match REGEX_CONTEXT (error
otherwise); a third nonempty piece is kept verbatim as details; the line
and column digit runs are converted through str::parse on u32, whose
failure (only possible by exceeding the u32 range) is a panic via expect,
the line number being converted first. -/
def RustDiagnostic.fromStrChars (inp : List Char) : PResult RustDiagnostic :=
  let handler : String := "Invalid input: " ++ ⟨inp⟩
  match splitn3 inp with
  | [] => .err handler
  | l0 :: rest =>
    match headerMatchFrom l0 with
    | none => .err handler
    | some (t, code, msg) =>
      let details : Option String :=
        match rest with
        | _ :: l2 :: _ => if l2.isEmpty then none else some ⟨l2⟩
        | _ => none
      match rest with
      | [] => .ok ⟨t, code.map String.mk, ⟨msg⟩, none, none, none, details⟩
      | l1 :: _ =>
        if l1.isEmpty then .ok ⟨t, code.map String.mk, ⟨msg⟩, none, none, none, details⟩
        else
          match contextMatchFrom l1 with
          | none => .err handler
          | some (f, ds, cs) =>
            let lv := digitsVal ds
            if lv ≤ 4294967295 then
              let cv := digitsVal cs
              if cv ≤ 4294967295 then
                .ok ⟨t, code.map String.mk, ⟨msg⟩, some ⟨f⟩, some lv, some cv, details⟩
              else .panicked "Column number was not a number!"
            else .panicked "Line number was not a number!"

/-- String-level wrapper of fromStrChars. -/
def RustDiagnostic.fromStr (s : String) : PResult RustDiagnostic :=
  RustDiagnostic.fromStrChars s.data

/-- Models impl Display for RustDiagnostic (src/rust.rs lines 72-105) on
character lists: the kind, the bracketed code when present, a colon-space,
the message and a newline; when the file is present an indented arrow line
with file, line and column (a dash standing for an absent number) and a
newline; when details are present the details text and a newline. -/
def RustDiagnostic.renderChars (d : RustDiagnostic) : List Char :=
  kindChars d.type_
    ++ (match d.num with
        | some n => '[' :: n.data ++ [']']
        | none => [])
    ++ ':' :: ' ' :: d.message.data ++ ['\n']
    ++ (match d.file with
        | some f =>
          "  --> ".data ++ f.data
            ++ ':' :: (match d.line with
                       | some l => natReprL l
                       | none => ['-'])
            ++ ':' :: (match d.column with
                       | some c => natReprL c
                       | none => ['-'])
            ++ ['\n']
        | none => [])
    ++ (match d.details with
        | some dt => dt.data ++ ['\n']
        | none => [])

/-- String-level wrapper of renderChars (the Display output). -/
def RustDiagnostic.render (d : RustDiagnostic) : String :=
  ⟨d.renderChars⟩

/- ------------------------------------------------------------------ -/
/- The parsing loop of cargo::run (src/cargo.rs).                      -/
/- ------------------------------------------------------------------ -/

/-- Models enum ParseState of src/cargo.rs: outside any diagnostic, or
collecting one with the buffered text so far. -/
inductive ParseState where
  | Nothing
  | Diagnostic (acc : List Char)

/-- Pushing one parsed diagnostic into the result, errors and warnings
kept apart in arrival order (the match on diag.type_ in src/cargo.rs). -/
def pushDiag (res : CompileResult) (d : RustDiagnostic) : CompileResult :=
  match d.type_ with
  | .Error => { res with errors := res.errors ++ [d] }
  | .Warning => { res with warnings := res.warnings ++ [d] }

/-- Does a line start a diagnostic block?  Models the starts_with check of
src/cargo.rs line 47 (warning tested first, as in the source). -/
def isStarterL (line : List Char) : Bool :=
  "warning".data.isPrefixOf line || "error".data.isPrefixOf line

/-- Models the for loop of src/cargo.rs lines 43-66: in state Nothing a
starter line opens a block (buffered with a trailing newline) and other
lines are discarded; in state Diagnostic an empty line closes the block,
which is parsed (an Err propagating out of run through the question-mark
operator), and a nonempty line is appended to the buffer with a trailing
newline.  When the lines are exhausted the accumulated result is returned
whatever the state, a partial block being dropped. -/
def processLines : ParseState → CompileResult → List (List Char) → PResult CompileResult
  | _, res, [] => .ok res
  | .Nothing, res, line :: rest =>
    if isStarterL line then processLines (.Diagnostic (line ++ ['\n'])) res rest
    else processLines .Nothing res rest
  | .Diagnostic acc, res, line :: rest =>
    if line.isEmpty then
      match RustDiagnostic.fromStrChars acc with
      | .ok d => processLines .Nothing (pushDiag res d) rest
      | .err e => .err e
      | .panicked e => .panicked e
    else processLines (.Diagnostic (acc ++ line ++ ['\n'])) res rest

/-- Strip one trailing carriage return (the per-line treatment of
str::lines). -/
def stripCRL (l : List Char) : List Char :=
  match l.getLast? with
  | some '\r' => l.dropLast
  | _ => l

/-- Piece-list form of str::lines: every piece but the last was
newline-terminated and loses a trailing carriage return; a final empty
piece (from a trailing newline) is dropped; a final nonempty piece is kept
verbatim. -/
def rustLinesAux : List (List Char) → List (List Char)
  | [] => []
  | [last] => if last.isEmpty then [] else [last]
  | p :: q :: rest => stripCRL p :: rustLinesAux (q :: rest)

/-- Split a character list at newlines, keeping empty pieces (the split
underlying str::lines); always returns at least one piece. -/
def splitNl : List Char → List (List Char)
  | [] => [[]]
  | c :: r =>
    if c = '\n' then [] :: splitNl r
    else
      match splitNl r with
      | [] => [[c]]
      | p :: ps => (c :: p) :: ps

/-- Models str::lines on the captured stderr text. -/
def rustLinesL (s : List Char) : List (List Char) :=
  rustLinesAux (splitNl s)

/-- Models cargo::run (src/cargo.rs lines 20-69) after the child process
has finished: the exit status and the captured stderr text (already
decoded as valid UTF-8) are explicit inputs; success is exit code zero;
the stderr lines are folded through the two-state scanner. -/
def Cargo.run (exitCode : Nat) (stderr : String) : PResult CompileResult :=
  processLines .Nothing { success := exitCode == 0, errors := [], warnings := [] } (rustLinesL stderr.data)

/- ------------------------------------------------------------------ -/
/- The watcher (src/watcher.rs).                                       -/
/- ------------------------------------------------------------------ -/

/-- Models struct State of src/watcher.rs.  The glib Sender is an opaque
channel handle and the JoinHandle an opaque thread handle; both are
modelled by Nat tokens.  The quit flag and the runner slot are the data
the claims are about. -/
structure WatchState where
  project_root : String
  command : String
  quit : Bool
  tx : Nat
  runner : Option Nat
deriving DecidableEq, Repr

/-- Models Watcher::new (src/watcher.rs lines 29-43): builds the shared
state and returns Ok unconditionally; no property of the project root is
examined. -/
def Watcher.new (project_root : String) (command : String) (tx : Nat) : Except String WatchState :=
  .ok { project_root := project_root, command := command, quit := false, tx := tx, runner := none }

/-- Models Watcher::start (src/watcher.rs lines 45-50): stores the handle
of the freshly spawned worker thread in the runner slot; the spawn itself
is I/O, so the handle is an explicit argument.  Nothing else changes and
no value is returned. -/
def Watcher.start (s : WatchState) (handle : Nat) : WatchState :=
  { s with runner := some handle }

/-- Models Watcher::try_stop (src/watcher.rs lines 52-54): sets the quit
flag; nothing else is touched. -/
def Watcher.try_stop (s : WatchState) : WatchState :=
  { s with quit := true }

/-- Result of one Handler callback of src/watcher.rs: Ok with a
continuation flag, or the Io-wrapped error produced by the map_err. -/
inductive HandlerResult where
  | ok (cont : Bool)
  | ioError (msg : String)
deriving DecidableEq, Repr

/-- Models Watcher::on_manual (src/watcher.rs lines 65-81).  The outcome
of cargo::run is an explicit argument (process execution is I/O).  The
returned triple records whether the runner was invoked, the list of
results sent to the sink (the glib channel accepts the send), and the
value returned to the watch library; an Err of the run is wrapped as an
Io error and returned, nothing being sent to the sink. -/
def Watcher.on_manual (s : WatchState) (runResult : Except String CompileResult) :
    Bool × List CompileResult × HandlerResult :=
  if s.quit then (false, [], .ok false)
  else
    match runResult with
    | .ok r => (true, [r], .ok true)
    | .error e => (true, [], .ioError e)

/-- Models Watcher::on_update (src/watcher.rs lines 83-85): delegates to
on_manual, ignoring the path operations. -/
def Watcher.on_update (s : WatchState) (runResult : Except String CompileResult) :
    Bool × List CompileResult × HandlerResult :=
  Watcher.on_manual s runResult

/- ------------------------------------------------------------------ -/
/- Helper lemmas: list and character utilities.                        -/
/- ------------------------------------------------------------------ -/

theorem stripP_pre (p r : List Char) : stripP p (p ++ r) = some r := by
  induction p with
  | nil => rfl
  | cons c cs ih => simp [stripP, ih]

/-- Head test used to state the greedy-span lemmas. -/
def headFails (p : Char → Bool) : List Char → Prop
  | [] => True
  | h :: _ => p h = false

theorem spanCh_app (p : Char → Bool) (xs r : List Char)
    (hxs : ∀ c ∈ xs, p c = true) (hr : headFails p r) :
    spanCh p (xs ++ r) = (xs, r) := by
  induction xs with
  | nil =>
    cases r with
    | nil => rfl
    | cons h t => simp [spanCh, headFails] at hr ⊢; simp [hr]
  | cons c cs ih =>
    have hc : p c = true := hxs c (by simp)
    have := ih (fun d hd => hxs d (by simp [hd]))
    simp [spanCh, hc, this]

theorem spanCh_decomp (p : Char → Bool) (l : List Char) :
    (spanCh p l).1 ++ (spanCh p l).2 = l ∧
    (∀ c ∈ (spanCh p l).1, p c = true) ∧
    headFails p (spanCh p l).2 := by
  induction l with
  | nil => simp [spanCh, headFails]
  | cons c cs ih =>
    by_cases hc : p c = true
    · simpa [spanCh, hc, headFails] using ⟨ih.1, ih.2.1, ih.2.2⟩
    · simp at hc
      simp [spanCh, hc, headFails]

theorem splitAtNewline_app (x y : List Char) (hx : '\n' ∉ x) :
    splitAtNewline (x ++ '\n' :: y) = some (x, y) := by
  induction x with
  | nil => simp [splitAtNewline]
  | cons c cs ih =>
    have hc : c ≠ '\n' := by intro h; exact hx (by simp [h])
    have := ih (fun h => hx (by simp [h]))
    simp [splitAtNewline, hc, this]

theorem splitAtNewline_none (x : List Char) (hx : '\n' ∉ x) :
    splitAtNewline x = none := by
  induction x with
  | nil => rfl
  | cons c cs ih =>
    have hc : c ≠ '\n' := by intro h; exact hx (by simp [h])
    have := ih (fun h => hx (by simp [h]))
    simp [splitAtNewline, hc, this]

theorem splitNl_app (x y : List Char) (hx : '\n' ∉ x) :
    splitNl (x ++ '\n' :: y) = x :: splitNl y := by
  induction x with
  | nil => simp [splitNl]
  | cons c cs ih =>
    have hc : c ≠ '\n' := by intro h; exact hx (by simp [h])
    have := ih (fun h => hx (by simp [h]))
    simp [splitNl, hc, this]

theorem splitNl_no (x : List Char) (hx : '\n' ∉ x) :
    splitNl x = [x] := by
  induction x with
  | nil => rfl
  | cons c cs ih =>
    have hc : c ≠ '\n' := by intro h; exact hx (by simp [h])
    have := ih (fun h => hx (by simp [h]))
    simp [splitNl, hc, this]

/- ------------------------------------------------------------------ -/
/- Helper lemmas: decimal formatting round trip.                       -/
/- ------------------------------------------------------------------ -/

theorem digitChar_isDigit (m : Nat) (h : m < 10) : (digitChar m).isDigit = true := by
  interval_cases m <;> decide

theorem digitChar_val (m : Nat) (h : m < 10) : (digitChar m).toNat - 48 = m := by
  interval_cases m <;> decide

/-- Accumulator-style value of the digits printed for n (Horner form). -/
def reprVal (a n : Nat) : Nat :=
  if n < 10 then a * 10 + n else reprVal a (n / 10) * 10 + n % 10
termination_by n
decreasing_by
  exact Nat.div_lt_self (by omega) (by omega)

theorem digitsValFrom_natReprAux :
    ∀ n a acc, digitsValFrom a (natReprAux n acc) = digitsValFrom (reprVal a n) acc := by
  intro n
  induction n using Nat.strong_induction_on with
  | _ n ih =>
    intro a acc
    by_cases h : n < 10
    · rw [natReprAux, reprVal]
      simp only [dif_pos h, if_pos h]
      have hv : (digitChar n).toNat - 48 = n := digitChar_val n h
      simp [digitsValFrom, Nat.mod_eq_of_lt h, hv]
    · rw [natReprAux, reprVal]
      simp only [dif_neg h, if_neg h]
      rw [ih (n / 10) (Nat.div_lt_self (by omega) (by omega)) a]
      have hv : (digitChar (n % 10)).toNat - 48 = n % 10 :=
        digitChar_val _ (Nat.mod_lt _ (by omega))
      simp [digitsValFrom, hv]

theorem reprVal_zero : ∀ n, reprVal 0 n = n := by
  intro n
  induction n using Nat.strong_induction_on with
  | _ n ih =>
    by_cases h : n < 10
    · rw [reprVal]; simp [h]
    · rw [reprVal]
      simp only [if_neg h]
      rw [ih (n / 10) (Nat.div_lt_self (by omega) (by omega))]
      omega

theorem digitsVal_natReprL (n : Nat) : digitsVal (natReprL n) = n := by
  unfold digitsVal natReprL
  rw [digitsValFrom_natReprAux]
  simp [digitsValFrom, reprVal_zero]

theorem natReprAux_all_digits :
    ∀ n acc, (∀ c ∈ acc, c.isDigit = true) → ∀ c ∈ natReprAux n acc, c.isDigit = true := by
  intro n
  induction n using Nat.strong_induction_on with
  | _ n ih =>
    intro acc hacc c hc
    by_cases h : n < 10
    · rw [natReprAux] at hc
      simp only [dif_pos h] at hc
      rcases List.mem_cons.mp hc with h1 | h1
      · subst h1; exact digitChar_isDigit _ (Nat.mod_lt _ (by omega))
      · exact hacc c h1
    · rw [natReprAux] at hc
      simp only [dif_neg h] at hc
      refine ih (n / 10) (Nat.div_lt_self (by omega) (by omega)) _ ?_ c hc
      intro d hd
      rcases List.mem_cons.mp hd with h1 | h1
      · subst h1; exact digitChar_isDigit _ (Nat.mod_lt _ (by omega))
      · exact hacc d h1

theorem natReprL_all_digits (n : Nat) : ∀ c ∈ natReprL n, c.isDigit = true :=
  natReprAux_all_digits n [] (by simp)

theorem natReprAux_ne_nil : ∀ n acc, natReprAux n acc ≠ [] := by
  intro n
  induction n using Nat.strong_induction_on with
  | _ n ih =>
    intro acc
    by_cases h : n < 10
    · rw [natReprAux]; simp [h]
    · rw [natReprAux]
      simp only [dif_neg h]
      exact ih (n / 10) (Nat.div_lt_self (by omega) (by omega)) _

theorem natReprL_ne_nil (n : Nat) : natReprL n ≠ [] :=
  natReprAux_ne_nil n []

/- ------------------------------------------------------------------ -/
/- Helper lemmas: digit characters are not the delimiters.             -/
/- ------------------------------------------------------------------ -/

theorem isDigit_ne_newline {c : Char} (h : c.isDigit = true) : c ≠ '\n' := by
  intro hc; rw [hc] at h; exact absurd h (by decide)

theorem isDigit_ne_cr {c : Char} (h : c.isDigit = true) : c ≠ '\r' := by
  intro hc; rw [hc] at h; exact absurd h (by decide)

theorem isDigit_bne_colon {c : Char} (h : c.isDigit = true) : (c != ':') = true := by
  have : c ≠ ':' := by intro hc; rw [hc] at h; exact absurd h (by decide)
  simpa using this

theorem isDigit_beq_space {c : Char} (h : c.isDigit = true) : (c == ' ') = false := by
  have : c ≠ ' ' := by intro hc; rw [hc] at h; exact absurd h (by decide)
  simpa using this

theorem isDigit_ne_rbracket {c : Char} (h : c.isDigit = true) : c ≠ ']' := by
  intro hc; rw [hc] at h; exact absurd h (by decide)

theorem headFails_cons (p : Char → Bool) (h : Char) (t : List Char) :
    headFails p (h :: t) = (p h = false) := rfl

theorem headFails_nil (p : Char → Bool) : headFails p [] = True := rfl

/- ------------------------------------------------------------------ -/
/- Helper lemmas: the header-line matcher on well-formed headers.      -/
/- ------------------------------------------------------------------ -/

theorem stripP_error_self (r : List Char) :
    stripP ['e', 'r', 'r', 'o', 'r'] ('e' :: 'r' :: 'r' :: 'o' :: 'r' :: r) = some r := rfl

theorem stripP_error_warn (r : List Char) :
    stripP ['e', 'r', 'r', 'o', 'r'] ('w' :: 'a' :: 'r' :: 'n' :: 'i' :: 'n' :: 'g' :: r) = none := rfl

theorem stripP_warn_self (r : List Char) :
    stripP ['w', 'a', 'r', 'n', 'i', 'n', 'g'] ('w' :: 'a' :: 'r' :: 'n' :: 'i' :: 'n' :: 'g' :: r)
      = some r := rfl

theorem codeGroup_colon (x : List Char) : codeGroup (':' :: x) = none := rfl

theorem stripP_colonspace (m : List Char) : stripP [':', ' '] (':' :: ' ' :: m) = some m := rfl

theorem codeGroup_code (ds r : List Char) (h1 : ds ≠ []) (h2 : ∀ c ∈ ds, c.isDigit = true) :
    codeGroup ('[' :: 'E' :: (ds ++ ']' :: r)) = some ('E' :: ds, r) := by
  have hspan := spanCh_app Char.isDigit ds (']' :: r) h2 (by rw [headFails_cons]; decide)
  obtain ⟨d, ds', rfl⟩ := List.exists_cons_of_ne_nil h1
  simp only [List.cons_append] at hspan
  simp [codeGroup, hspan]

theorem headerMatchHere_nocode (t : DiagType) (msg : List Char) :
    headerMatchHere (kindChars t ++ ':' :: ' ' :: msg) = some (t, none, msg) := by
  cases t <;>
    simp [headerMatchHere, kindChars, afterKind, stripP_error_self, stripP_error_warn,
      stripP_warn_self, codeGroup_colon, stripP_colonspace]

theorem headerMatchHere_code (t : DiagType) (ds msg : List Char)
    (h1 : ds ≠ []) (h2 : ∀ c ∈ ds, c.isDigit = true) :
    headerMatchHere (kindChars t ++ '[' :: 'E' :: (ds ++ ']' :: ':' :: ' ' :: msg))
      = some (t, some ('E' :: ds), msg) := by
  have hcg := codeGroup_code ds (':' :: ' ' :: msg) h1 h2
  cases t <;>
    simp [headerMatchHere, kindChars, afterKind, stripP_error_self, stripP_error_warn,
      stripP_warn_self, hcg, stripP_colonspace]

theorem headerMatchFrom_of_here (l : List Char) (x : DiagType × Option (List Char) × List Char)
    (hne : l ≠ []) (h : headerMatchHere l = some x) :
    headerMatchFrom l = some x := by
  cases l with
  | nil => exact absurd rfl hne
  | cons c r => simp [headerMatchFrom, h]

theorem kindChars_ne_nil (t : DiagType) : kindChars t ≠ [] := by
  cases t <;> simp [kindChars]

/- ------------------------------------------------------------------ -/
/- Helper lemmas: the location-line matcher on well-formed lines.      -/
/- ------------------------------------------------------------------ -/

theorem ctxTail_good (f lds cds : List Char)
    (hf : f ≠ []) (hfc : ∀ c ∈ f, (c != ':') = true)
    (hl : lds ≠ []) (hld : ∀ c ∈ lds, c.isDigit = true)
    (hc : cds ≠ []) (hcd : ∀ c ∈ cds, c.isDigit = true) :
    ctxTail (f ++ (':' :: (lds ++ (':' :: cds)))) = some (f, lds, cds) := by
  have h1 := spanCh_app (fun c => c != ':') f (':' :: (lds ++ (':' :: cds))) hfc
    (by rw [headFails_cons]; decide)
  have h2 := spanCh_app Char.isDigit lds (':' :: cds) hld (by rw [headFails_cons]; decide)
  have h3 : spanCh Char.isDigit cds = (cds, []) := by
    have := spanCh_app Char.isDigit cds [] hcd (by rw [headFails_nil]; trivial)
    simpa using this
  obtain ⟨a, f', rfl⟩ := List.exists_cons_of_ne_nil hf
  obtain ⟨b, l', rfl⟩ := List.exists_cons_of_ne_nil hl
  obtain ⟨c, c', rfl⟩ := List.exists_cons_of_ne_nil hc
  simp only [List.cons_append] at h1 h2
  simp [ctxTail, h1, h2, h3]

theorem contextMatchHere_arrow (u : List Char) :
    contextMatchHere (' ' :: ' ' :: '-' :: '-' :: '>' :: ' ' :: u) = ctxTail u := rfl

theorem contextMatchFrom_of_good (u : List Char) (x : List Char × List Char × List Char)
    (h : ctxTail u = some x) :
    contextMatchFrom (' ' :: ' ' :: '-' :: '-' :: '>' :: ' ' :: u) = some x := by
  have h2 : contextMatchHere (' ' :: ' ' :: '-' :: '-' :: '>' :: ' ' :: u) = some x := by
    rw [contextMatchHere_arrow, h]
  simp [contextMatchFrom, h2]

/- ------------------------------------------------------------------ -/
/- Helper lemmas: fromStrChars on assembled blocks.                    -/
/- ------------------------------------------------------------------ -/

theorem fromStrChars_header_only (H : List Char)
    (t : DiagType) (code : Option (List Char)) (msg : List Char)
    (hnl : '\n' ∉ H) (hh : headerMatchFrom H = some (t, code, msg)) :
    RustDiagnostic.fromStrChars (H ++ ['\n'])
      = .ok ⟨t, code.map String.mk, ⟨msg⟩, none, none, none, none⟩ := by
  have hs1 : splitAtNewline (H ++ '\n' :: []) = some (H, []) := splitAtNewline_app H [] hnl
  have hsp : splitn3 (H ++ ['\n']) = [H, []] := by
    simp [splitn3, hs1, splitAtNewline]
  simp [RustDiagnostic.fromStrChars, hsp, hh]

theorem fromStrChars_header_loc (H L : List Char)
    (t : DiagType) (code : Option (List Char)) (msg : List Char)
    (f lds cds : List Char)
    (hnlH : '\n' ∉ H) (hnlL : '\n' ∉ L) (hLne : L ≠ [])
    (hh : headerMatchFrom H = some (t, code, msg))
    (hctx : contextMatchFrom L = some (f, lds, cds))
    (hlv : digitsVal lds ≤ 4294967295) (hcv : digitsVal cds ≤ 4294967295) :
    RustDiagnostic.fromStrChars (H ++ '\n' :: (L ++ ['\n']))
      = .ok ⟨t, code.map String.mk, ⟨msg⟩, some ⟨f⟩, some (digitsVal lds), some (digitsVal cds), none⟩ := by
  have hs1 : splitAtNewline (H ++ '\n' :: (L ++ ['\n'])) = some (H, L ++ ['\n']) :=
    splitAtNewline_app H (L ++ ['\n']) hnlH
  have hs2 : splitAtNewline (L ++ '\n' :: []) = some (L, []) := splitAtNewline_app L [] hnlL
  have hsp : splitn3 (H ++ '\n' :: (L ++ ['\n'])) = [H, L, []] := by
    simp [splitn3, hs1, hs2]
  have hLe : L.isEmpty = false := by
    obtain ⟨a, L', rfl⟩ := List.exists_cons_of_ne_nil hLne
    rfl
  simp [RustDiagnostic.fromStrChars, hsp, hh, hLe, hctx, hlv, hcv]

/- ------------------------------------------------------------------ -/
/- Well-formedness predicates used by the round-trip statement.        -/
/- ------------------------------------------------------------------ -/

/-- A code field the grammar can reproduce: absent, or the letter E
followed by at least one decimal digit (the shape of regex group 3). -/
def validCode : Option String → Bool
  | none => true
  | some n =>
    match n.data with
    | c :: ds => c == 'E' && !ds.isEmpty && ds.all Char.isDigit
    | [] => false

/-- Location fields the grammar can reproduce: all three absent, or all
three present with a nonempty file containing neither a colon nor a
newline and with line and column in the u32 range. -/
def validLocation (d : RustDiagnostic) : Bool :=
  match d.file, d.line, d.column with
  | none, none, none => true
  | some f, some l, some c =>
    !f.data.isEmpty && f.data.all (fun ch => ch != ':' && ch != '\n')
      && decide (l < 4294967296) && decide (c < 4294967296)
  | _, _, _ => false

theorem not_mem_of_all_bne {a : Char} {l : List Char}
    (h : l.all (fun ch => ch != a) = true) : a ∉ l := by
  intro hm
  have := List.all_eq_true.mp h a hm
  simp at this

/-- C1 (amended): the Display and FromStr implementations of
RustDiagnostic are mutually inverse on every diagnostic whose details
field is absent, whose message contains no newline, whose code is absent
or of the regex shape E followed by digits, and whose location fields are
either all absent or all present with a well-formed file name and u32
line and column values. -/
theorem C1_roundtrip (d : RustDiagnostic)
    (hnum : validCode d.num = true)
    (hmsg : d.message.data.all (fun ch => ch != '\n') = true)
    (hloc : validLocation d = true)
    (hdet : d.details = none) :
    RustDiagnostic.fromStr d.render = PResult.ok d := by
  obtain ⟨t, num, msg, file, line, col, det⟩ := d
  dsimp only at hnum hmsg hloc hdet
  subst hdet
  have hmsgnl : '\n' ∉ msg.data := by
    intro hm
    have := List.all_eq_true.mp hmsg _ hm
    simp at this
  have hfs : ∀ X : RustDiagnostic,
      RustDiagnostic.fromStr X.render = RustDiagnostic.fromStrChars X.renderChars :=
    fun _ => rfl
  rw [hfs]
  rcases file with _ | f
  · -- location absent
    rcases line with _ | l
    · rcases col with _ | c
      · -- all three location fields absent
        cases num with
        | none =>
          have hH : headerMatchFrom (kindChars t ++ ':' :: ' ' :: msg.data)
              = some (t, none, msg.data) :=
            headerMatchFrom_of_here _ _ (by cases t <;> simp [kindChars])
              (headerMatchHere_nocode t msg.data)
          have hnlH : '\n' ∉ (kindChars t ++ ':' :: ' ' :: msg.data) := by
            cases t <;> simp [kindChars, hmsgnl]
          have hshape : RustDiagnostic.renderChars ⟨t, none, msg, none, none, none, none⟩
              = (kindChars t ++ ':' :: ' ' :: msg.data) ++ ['\n'] := by
            simp [RustDiagnostic.renderChars]
          rw [hshape, fromStrChars_header_only _ t none msg.data hnlH hH]
          rfl
        | some n =>
          rcases hnd : n.data with _ | ⟨c0, ds⟩
          · simp [validCode, hnd] at hnum
          · simp [validCode, hnd] at hnum
            obtain ⟨⟨hc0, hdsne⟩, hdsdig⟩ := hnum
            subst hc0
            have hdsnl : '\n' ∉ ds := fun hm => isDigit_ne_newline (hdsdig _ hm) rfl
            have hH : headerMatchFrom
                (kindChars t ++ '[' :: 'E' :: (ds ++ ']' :: ':' :: ' ' :: msg.data))
                = some (t, some ('E' :: ds), msg.data) :=
              headerMatchFrom_of_here _ _ (by cases t <;> simp [kindChars])
                (headerMatchHere_code t ds msg.data hdsne hdsdig)
            have hnlH : '\n' ∉ (kindChars t ++ '[' :: 'E' :: (ds ++ ']' :: ':' :: ' ' :: msg.data)) := by
              cases t <;> simp [kindChars, hmsgnl, hdsnl]
            have hshape : RustDiagnostic.renderChars ⟨t, some n, msg, none, none, none, none⟩
                = (kindChars t ++ '[' :: 'E' :: (ds ++ ']' :: ':' :: ' ' :: msg.data)) ++ ['\n'] := by
              simp [RustDiagnostic.renderChars, hnd]
            rw [hshape, fromStrChars_header_only _ t (some ('E' :: ds)) msg.data hnlH hH]
            rw [← hnd]
            rfl
      · simp [validLocation] at hloc
    · simp [validLocation] at hloc
  · -- location present
    rcases line with _ | l
    · simp [validLocation] at hloc
    · rcases col with _ | c
      · simp [validLocation] at hloc
      · simp only [validLocation, Bool.and_eq_true, List.all_eq_true,
          Bool.not_eq_true', decide_eq_true_eq, bne_iff_ne, ne_eq] at hloc
        obtain ⟨⟨⟨hfne, hfch⟩, hl32⟩, hc32⟩ := hloc
        have hfc : ∀ ch ∈ f.data, (ch != ':') = true := fun ch hm => by
          simpa using (hfch ch hm).1
        have hfnl : '\n' ∉ f.data := fun hm => (hfch _ hm).2 rfl
        have hfne' : f.data ≠ [] := by
          intro h
          rw [h] at hfne
          simp at hfne
        have hdl : '\n' ∉ natReprL l := fun hm =>
          isDigit_ne_newline (natReprL_all_digits l _ hm) rfl
        have hdc : '\n' ∉ natReprL c := fun hm =>
          isDigit_ne_newline (natReprL_all_digits c _ hm) rfl
        have hctx : contextMatchFrom
            (' ' :: ' ' :: '-' :: '-' :: '>' :: ' ' :: (f.data ++ (':' :: (natReprL l ++ (':' :: natReprL c)))))
              = some (f.data, natReprL l, natReprL c) :=
          contextMatchFrom_of_good _ _
            (ctxTail_good f.data (natReprL l) (natReprL c) hfne' hfc
              (natReprL_ne_nil l) (natReprL_all_digits l)
              (natReprL_ne_nil c) (natReprL_all_digits c))
        have hnlL : '\n' ∉ (' ' :: ' ' :: '-' :: '-' :: '>' :: ' ' :: (f.data ++ (':' :: (natReprL l ++ (':' :: natReprL c))))) := by
          simp [hfnl, hdl, hdc]
        have hLne : (' ' :: ' ' :: '-' :: '-' :: '>' :: ' ' :: (f.data ++ (':' :: (natReprL l ++ (':' :: natReprL c))))) ≠ ([] : List Char) := by
          simp
        have hlv : digitsVal (natReprL l) ≤ 4294967295 := by
          rw [digitsVal_natReprL]; omega
        have hcv : digitsVal (natReprL c) ≤ 4294967295 := by
          rw [digitsVal_natReprL]; omega
        cases num with
        | none =>
          have hH : headerMatchFrom (kindChars t ++ ':' :: ' ' :: msg.data)
              = some (t, none, msg.data) :=
            headerMatchFrom_of_here _ _ (by cases t <;> simp [kindChars])
              (headerMatchHere_nocode t msg.data)
          have hnlH : '\n' ∉ (kindChars t ++ ':' :: ' ' :: msg.data) := by
            cases t <;> simp [kindChars, hmsgnl]
          have hshape : RustDiagnostic.renderChars ⟨t, none, msg, some f, some l, some c, none⟩
              = (kindChars t ++ ':' :: ' ' :: msg.data)
                ++ '\n' :: ((' ' :: ' ' :: '-' :: '-' :: '>' :: ' ' :: (f.data ++ (':' :: (natReprL l ++ (':' :: natReprL c))))) ++ ['\n']) := by
            simp [RustDiagnostic.renderChars]
          rw [hshape, fromStrChars_header_loc _ _ t none msg.data f.data (natReprL l) (natReprL c)
            hnlH hnlL hLne hH hctx hlv hcv]
          rw [digitsVal_natReprL, digitsVal_natReprL]
          rfl
        | some n =>
          rcases hnd : n.data with _ | ⟨c0, ds⟩
          · simp [validCode, hnd] at hnum
          · simp [validCode, hnd] at hnum
            obtain ⟨⟨hc0, hdsne⟩, hdsdig⟩ := hnum
            subst hc0
            have hdsnl : '\n' ∉ ds := fun hm => isDigit_ne_newline (hdsdig _ hm) rfl
            have hH : headerMatchFrom
                (kindChars t ++ '[' :: 'E' :: (ds ++ ']' :: ':' :: ' ' :: msg.data))
                = some (t, some ('E' :: ds), msg.data) :=
              headerMatchFrom_of_here _ _ (by cases t <;> simp [kindChars])
                (headerMatchHere_code t ds msg.data hdsne hdsdig)
            have hnlH : '\n' ∉ (kindChars t ++ '[' :: 'E' :: (ds ++ ']' :: ':' :: ' ' :: msg.data)) := by
              cases t <;> simp [kindChars, hmsgnl, hdsnl]
            have hshape : RustDiagnostic.renderChars ⟨t, some n, msg, some f, some l, some c, none⟩
                = (kindChars t ++ '[' :: 'E' :: (ds ++ ']' :: ':' :: ' ' :: msg.data))
                  ++ '\n' :: ((' ' :: ' ' :: '-' :: '-' :: '>' :: ' ' :: (f.data ++ (':' :: (natReprL l ++ (':' :: natReprL c))))) ++ ['\n']) := by
              simp [RustDiagnostic.renderChars, hnd]
            rw [hshape, fromStrChars_header_loc _ _ t (some ('E' :: ds)) msg.data f.data (natReprL l) (natReprL c)
              hnlH hnlL hLne hH hctx hlv hcv]
            rw [digitsVal_natReprL, digitsVal_natReprL, ← hnd]
            rfl

/-- C1 counterexample: the diagnostic with message m, details det and no
location renders to a text whose re-parsing fails, so the unconditional
round trip of the claim does not hold. -/
theorem C1_counterexample :
    RustDiagnostic.fromStr
        (RustDiagnostic.render ⟨DiagType.Error, none, "m", none, none, none, some "det"⟩)
      ≠ PResult.ok ⟨DiagType.Error, none, "m", none, none, none, some "det"⟩ := by
  decide

/-- C1 witness: the amended round trip at a concrete diagnostic with code,
location and no details. -/
theorem C1_roundtrip_witness :
    validCode (some "E0502") = true ∧
    ("cannot borrow".data.all (fun ch => ch != '\n')) = true ∧
    validLocation ⟨DiagType.Warning, some "E0502", "cannot borrow", some "src/lib.rs", some 12, some 5, none⟩ = true ∧
    RustDiagnostic.fromStr
        (RustDiagnostic.render ⟨DiagType.Warning, some "E0502", "cannot borrow", some "src/lib.rs", some 12, some 5, none⟩)
      = PResult.ok ⟨DiagType.Warning, some "E0502", "cannot borrow", some "src/lib.rs", some 12, some 5, none⟩ :=
  ⟨by decide, by decide, by decide,
    C1_roundtrip _ (by decide) (by decide) (by decide) rfl⟩

/- ------------------------------------------------------------------ -/
/- Helper lemmas: the scanning loop of cargo::run.                     -/
/- ------------------------------------------------------------------ -/

theorem strData_append (a b : String) : (a ++ b).data = a.data ++ b.data := rfl

theorem mem_of_getLast? {l : List Char} {a : Char} (h : l.getLast? = some a) : a ∈ l := by
  induction l with
  | nil => simp [List.getLast?] at h
  | cons b t ih =>
    cases t with
    | nil =>
      simp [List.getLast?] at h
      simp [h]
    | cons c u =>
      rw [List.getLast?_cons_cons] at h
      exact List.mem_cons_of_mem _ (ih h)

theorem stripCRL_no_cr {l : List Char} (h : '\r' ∉ l) : stripCRL l = l := by
  unfold stripCRL
  split
  · next heq => exact absurd (mem_of_getLast? heq) h
  · rfl

theorem isEmpty_ne_true_of_ne_nil {l : List Char} (h : l ≠ []) : ¬(l.isEmpty = true) := by
  cases l with
  | nil => exact absurd rfl h
  | cons a b => simp

theorem pushDiag_success (res : CompileResult) (d : RustDiagnostic) :
    (pushDiag res d).success = res.success := by
  cases hd : d.type_ <;> simp [pushDiag, hd]

theorem processLines_success (lines : List (List Char)) :
    ∀ st res out, processLines st res lines = .ok out → out.success = res.success := by
  induction lines with
  | nil =>
    intro st res out h
    cases st <;> (simp [processLines] at h; rw [← h])
  | cons line rest ih =>
    intro st res out h
    cases st with
    | Nothing =>
      rw [processLines] at h
      split at h
      · exact ih _ _ _ h
      · exact ih _ _ _ h
    | Diagnostic acc =>
      rw [processLines] at h
      split at h
      · split at h
        · have := ih _ _ _ h
          rw [this, pushDiag_success]
        · exact absurd h (by simp)
        · exact absurd h (by simp)
      · exact ih _ _ _ h

theorem processLines_drop_partial (body : List (List Char)) :
    ∀ (acc : List Char) (res : CompileResult), (∀ l ∈ body, l ≠ []) →
    processLines (.Diagnostic acc) res body = .ok res := by
  induction body with
  | nil => intro acc res _; rfl
  | cons line rest ih =>
    intro acc res h
    have hne : line ≠ [] := h line (by simp)
    rw [processLines, if_neg (isEmpty_ne_true_of_ne_nil hne)]
    exact ih _ res (fun l hl => h l (by simp [hl]))

/-- Block text accumulated by the scanner: the starting buffer followed by
each body line with a trailing newline. -/
def assembleFrom (acc : List Char) (body : List (List Char)) : List Char :=
  body.foldl (fun a l => a ++ l ++ ['\n']) acc

theorem processLines_chatter (c : List (List Char)) :
    ∀ (rest : List (List Char)) res, (∀ l ∈ c, isStarterL l = false) →
    processLines .Nothing res (c ++ rest) = processLines .Nothing res rest := by
  induction c with
  | nil => intro rest res _; rfl
  | cons line cs ih =>
    intro rest res h
    have h0 : isStarterL line = false := h line (by simp)
    rw [List.cons_append, processLines, if_neg (by simp [h0])]
    exact ih rest res (fun l hl => h l (by simp [hl]))

theorem processLines_collect (body : List (List Char)) :
    ∀ (acc : List Char) res rest, (∀ l ∈ body, l ≠ []) →
    processLines (.Diagnostic acc) res (body ++ [] :: rest)
      = (match RustDiagnostic.fromStrChars (assembleFrom acc body) with
         | .ok d => processLines .Nothing (pushDiag res d) rest
         | .err e => .err e
         | .panicked e => .panicked e) := by
  induction body with
  | nil => intro acc res rest _; rfl
  | cons line body' ih =>
    intro acc res rest h
    have hne : line ≠ [] := h line (by simp)
    rw [List.cons_append, processLines, if_neg (isEmpty_ne_true_of_ne_nil hne)]
    exact ih (acc ++ line ++ ['\n']) res rest (fun l hl => h l (by simp [hl]))

theorem processLines_block (s : List Char) (body rest : List (List Char))
    (res : CompileResult) (d : RustDiagnostic)
    (hs : isStarterL s = true) (hb : ∀ l ∈ body, l ≠ [])
    (hp : RustDiagnostic.fromStrChars (assembleFrom (s ++ ['\n']) body) = .ok d) :
    processLines .Nothing res ((s :: body) ++ [] :: rest)
      = processLines .Nothing (pushDiag res d) rest := by
  rw [List.cons_append, processLines, if_pos hs,
    processLines_collect body (s ++ ['\n']) res rest hb, hp]

/-- Classification used by pushDiag, as a Boolean. -/
def isErrorDiag (d : RustDiagnostic) : Bool :=
  match d.type_ with
  | .Error => true
  | .Warning => false

/-- Complement of isErrorDiag. -/
def isWarningDiag (d : RustDiagnostic) : Bool :=
  match d.type_ with
  | .Error => false
  | .Warning => true

/-- C2: on stderr lines made of chatter (lines that are not block
starters), a first blank-line-terminated diagnostic block, more chatter, a
second block and trailing chatter, the scanning loop of cargo::run
produces exactly the two block diagnostics in block order (split by kind
into errors and warnings as the loop does) and nothing from the chatter. -/
theorem C2_two_blocks (succ : Bool)
    (c0 c1 c2 : List (List Char)) (s1 s2 : List Char) (b1 b2 : List (List Char))
    (d1 d2 : RustDiagnostic)
    (hc0 : ∀ l ∈ c0, isStarterL l = false) (hc1 : ∀ l ∈ c1, isStarterL l = false)
    (hc2 : ∀ l ∈ c2, isStarterL l = false)
    (hs1 : isStarterL s1 = true) (hs2 : isStarterL s2 = true)
    (hb1 : ∀ l ∈ b1, l ≠ []) (hb2 : ∀ l ∈ b2, l ≠ [])
    (hp1 : RustDiagnostic.fromStrChars (assembleFrom (s1 ++ ['\n']) b1) = .ok d1)
    (hp2 : RustDiagnostic.fromStrChars (assembleFrom (s2 ++ ['\n']) b2) = .ok d2) :
    processLines .Nothing ⟨succ, [], []⟩
        (c0 ++ (s1 :: b1) ++ [[]] ++ c1 ++ (s2 :: b2) ++ [[]] ++ c2)
      = .ok ⟨succ, [d1, d2].filter isErrorDiag, [d1, d2].filter isWarningDiag⟩ := by
  have e1 : c0 ++ (s1 :: b1) ++ [[]] ++ c1 ++ (s2 :: b2) ++ [[]] ++ c2
      = c0 ++ ((s1 :: b1) ++ [] :: (c1 ++ ((s2 :: b2) ++ [] :: c2))) := by
    simp [List.append_assoc]
  rw [e1, processLines_chatter c0 _ _ hc0,
      processLines_block s1 b1 _ _ d1 hs1 hb1 hp1,
      processLines_chatter c1 _ _ hc1,
      processLines_block s2 b2 _ _ d2 hs2 hb2 hp2]
  have hend : processLines .Nothing (pushDiag (pushDiag ⟨succ, [], []⟩ d1) d2) c2
      = .ok (pushDiag (pushDiag ⟨succ, [], []⟩ d1) d2) := by
    have := processLines_chatter c2 [] (pushDiag (pushDiag ⟨succ, [], []⟩ d1) d2) hc2
    simpa using this
  rw [hend]
  cases ht1 : d1.type_ <;> cases ht2 : d2.type_ <;>
    simp [pushDiag, ht1, ht2, isErrorDiag, isWarningDiag, List.filter]

/-- C2 witness: one error block and one warning block amid chatter. -/
theorem C2_two_blocks_witness :
    processLines .Nothing ⟨true, [], []⟩
        (["Compiling foo".data] ++ ("error: a".data :: []) ++ [[]] ++ ["x".data]
          ++ ("warning: b".data :: []) ++ [[]] ++ [])
      = .ok ⟨true,
          [⟨DiagType.Error, none, "a", none, none, none, none⟩,
           ⟨DiagType.Warning, none, "b", none, none, none, none⟩].filter isErrorDiag,
          [⟨DiagType.Error, none, "a", none, none, none, none⟩,
           ⟨DiagType.Warning, none, "b", none, none, none, none⟩].filter isWarningDiag⟩ :=
  C2_two_blocks true ["Compiling foo".data] ["x".data] [] "error: a".data "warning: b".data [] []
    ⟨DiagType.Error, none, "a", none, none, none, none⟩
    ⟨DiagType.Warning, none, "b", none, none, none, none⟩
    (by decide) (by decide) (by decide) (by decide) (by decide)
    (by decide) (by decide) (by decide) (by decide)

/-- C4: the success flag of a completed run equals exit status zero, and a
run with exit status zero and empty stderr yields success with no errors
and no warnings. -/
theorem C4_success_flag :
    (∀ (code : Nat) (stderr : String) (res : CompileResult),
        Cargo.run code stderr = .ok res → (res.success = true ↔ code = 0)) ∧
    Cargo.run 0 "" = .ok ⟨true, [], []⟩ := by
  constructor
  · intro code stderr res h
    have hsucc := processLines_success _ _ _ _ h
    rw [hsucc]
    show ((code == 0) = true) ↔ code = 0
    exact beq_iff_eq
  · rfl

/-- C4 witness: the success criterion applied to a run with exit code 5
and empty stderr. -/
theorem C4_success_flag_witness :
    (CompileResult.success ⟨false, [], []⟩ = true) ↔ (5 : Nat) = 0 :=
  C4_success_flag.1 5 "" ⟨false, [], []⟩ rfl

/-- C10: when the lines end while the scanner is still collecting a block
(a starter line never followed by a blank line), the partial block is
silently discarded: the result accumulated so far is returned unchanged
and no error is raised. -/
theorem C10_partial_block_dropped :
    (∀ (acc : List Char) (res : CompileResult),
        processLines (.Diagnostic acc) res [] = .ok res) ∧
    (∀ (res : CompileResult) (s : List Char) (body : List (List Char)),
        isStarterL s = true → (∀ l ∈ body, l ≠ []) →
        processLines .Nothing res (s :: body) = .ok res) := by
  constructor
  · intro acc res; rfl
  · intro res s body hs hb
    rw [processLines, if_pos hs]
    exact processLines_drop_partial body _ res hb

/-- C10 witness: an unterminated error block after a successful result is
dropped. -/
theorem C10_partial_block_dropped_witness :
    processLines .Nothing ⟨true, [], []⟩ ["error: oops".data, "more context".data]
      = .ok ⟨true, [], []⟩ :=
  C10_partial_block_dropped.2 ⟨true, [], []⟩ "error: oops".data ["more context".data]
    (by decide) (by decide)

theorem strData_mk (l : List Char) : (String.mk l).data = l := rfl

/-- C3: a run whose captured stderr is exactly one error block with code
E0001, message mismatched types, a location line and a terminating blank
line produces one Error diagnostic carrying the code, the message and the
file, line and column of the location line, and no warnings. -/
theorem C3_single_error_block (exitCode : Nat) (f : String) (l c : Nat)
    (hfne : f.data ≠ [])
    (hfch : f.data.all (fun ch => ch != ':' && ch != '\n' && ch != '\r') = true)
    (hl : l < 4294967296) (hc : c < 4294967296) :
    Cargo.run exitCode
        ("error[E0001]: mismatched types\n  --> " ++ f ++ ":" ++ natRepr l ++ ":" ++ natRepr c ++ "\n\n")
      = .ok ⟨exitCode == 0,
          [⟨DiagType.Error, some "E0001", "mismatched types", some f, some l, some c, none⟩], []⟩ := by
  simp only [List.all_eq_true, Bool.and_eq_true, bne_iff_ne, ne_eq] at hfch
  have hfc : ∀ ch ∈ f.data, (ch != ':') = true := fun ch hm => by
    simpa using (hfch ch hm).1.1
  have hfnl : '\n' ∉ f.data := fun hm => (hfch _ hm).1.2 rfl
  have hfcr : '\r' ∉ f.data := fun hm => (hfch _ hm).2 rfl
  have hdl : '\n' ∉ natReprL l := fun hm => isDigit_ne_newline (natReprL_all_digits l _ hm) rfl
  have hdc : '\n' ∉ natReprL c := fun hm => isDigit_ne_newline (natReprL_all_digits c _ hm) rfl
  have hrl : '\r' ∉ natReprL l := fun hm => isDigit_ne_cr (natReprL_all_digits l _ hm) rfl
  have hrc : '\r' ∉ natReprL c := fun hm => isDigit_ne_cr (natReprL_all_digits c _ hm) rfl
  have h0 : "error[E0001]: mismatched types\n  --> ".data
      = "error[E0001]: mismatched types".data ++ '\n' :: [' ', ' ', '-', '-', '>', ' '] := by
    decide
  have hdata : ("error[E0001]: mismatched types\n  --> " ++ f ++ ":" ++ natRepr l ++ ":" ++ natRepr c ++ "\n\n").data
      = "error[E0001]: mismatched types".data
        ++ '\n' :: ((' ' :: ' ' :: '-' :: '-' :: '>' :: ' ' :: (f.data ++ (':' :: (natReprL l ++ (':' :: natReprL c))))) ++ '\n' :: ['\n']) := by
    simp [strData_append, natRepr, strData_mk, h0]
  have hnlH : '\n' ∉ "error[E0001]: mismatched types".data := by decide
  have hcrH : '\r' ∉ "error[E0001]: mismatched types".data := by decide
  have hnlL : '\n' ∉ (' ' :: ' ' :: '-' :: '-' :: '>' :: ' ' :: (f.data ++ (':' :: (natReprL l ++ (':' :: natReprL c))))) := by
    simp [hfnl, hdl, hdc]
  have hcrL : '\r' ∉ (' ' :: ' ' :: '-' :: '-' :: '>' :: ' ' :: (f.data ++ (':' :: (natReprL l ++ (':' :: natReprL c))))) := by
    simp [hfcr, hrl, hrc]
  have hsplitNl : splitNl (("error[E0001]: mismatched types\n  --> " ++ f ++ ":" ++ natRepr l ++ ":" ++ natRepr c ++ "\n\n").data)
      = ["error[E0001]: mismatched types".data,
         ' ' :: ' ' :: '-' :: '-' :: '>' :: ' ' :: (f.data ++ (':' :: (natReprL l ++ (':' :: natReprL c)))),
         [], []] := by
    rw [hdata, splitNl_app _ _ hnlH, splitNl_app _ _ hnlL]
    rfl
  have hlines : rustLinesL (("error[E0001]: mismatched types\n  --> " ++ f ++ ":" ++ natRepr l ++ ":" ++ natRepr c ++ "\n\n").data)
      = ["error[E0001]: mismatched types".data,
         ' ' :: ' ' :: '-' :: '-' :: '>' :: ' ' :: (f.data ++ (':' :: (natReprL l ++ (':' :: natReprL c)))),
         []] := by
    rw [rustLinesL, hsplitNl, rustLinesAux, rustLinesAux,
      stripCRL_no_cr hcrH, stripCRL_no_cr hcrL]
    rfl
  have hH : headerMatchFrom "error[E0001]: mismatched types".data
      = some (.Error, some ['E', '0', '0', '0', '1'], "mismatched types".data) := by
    decide
  have hctx : contextMatchFrom
      (' ' :: ' ' :: '-' :: '-' :: '>' :: ' ' :: (f.data ++ (':' :: (natReprL l ++ (':' :: natReprL c)))))
        = some (f.data, natReprL l, natReprL c) :=
    contextMatchFrom_of_good _ _
      (ctxTail_good f.data (natReprL l) (natReprL c) hfne hfc
        (natReprL_ne_nil l) (natReprL_all_digits l)
        (natReprL_ne_nil c) (natReprL_all_digits c))
  have hlv : digitsVal (natReprL l) ≤ 4294967295 := by rw [digitsVal_natReprL]; omega
  have hcv : digitsVal (natReprL c) ≤ 4294967295 := by rw [digitsVal_natReprL]; omega
  have hparse : RustDiagnostic.fromStrChars
      (assembleFrom ("error[E0001]: mismatched types".data ++ ['\n'])
        [' ' :: ' ' :: '-' :: '-' :: '>' :: ' ' :: (f.data ++ (':' :: (natReprL l ++ (':' :: natReprL c))))])
      = .ok ⟨.Error, (some ['E', '0', '0', '0', '1']).map String.mk, ⟨"mismatched types".data⟩,
          some ⟨f.data⟩, some (digitsVal (natReprL l)), some (digitsVal (natReprL c)), none⟩ := by
    have ha : assembleFrom ("error[E0001]: mismatched types".data ++ ['\n'])
        [' ' :: ' ' :: '-' :: '-' :: '>' :: ' ' :: (f.data ++ (':' :: (natReprL l ++ (':' :: natReprL c))))]
        = "error[E0001]: mismatched types".data
          ++ '\n' :: ((' ' :: ' ' :: '-' :: '-' :: '>' :: ' ' :: (f.data ++ (':' :: (natReprL l ++ (':' :: natReprL c))))) ++ ['\n']) := by
      simp [assembleFrom]
    rw [ha]
    exact fromStrChars_header_loc _ _ .Error (some ['E', '0', '0', '0', '1']) "mismatched types".data
      f.data (natReprL l) (natReprL c) hnlH hnlL (by simp) hH hctx hlv hcv
  have hrun : Cargo.run exitCode
      ("error[E0001]: mismatched types\n  --> " ++ f ++ ":" ++ natRepr l ++ ":" ++ natRepr c ++ "\n\n")
      = processLines .Nothing ⟨exitCode == 0, [], []⟩
          (rustLinesL (("error[E0001]: mismatched types\n  --> " ++ f ++ ":" ++ natRepr l ++ ":" ++ natRepr c ++ "\n\n").data)) := rfl
  rw [hrun, hlines]
  have hshape2 : (["error[E0001]: mismatched types".data,
      ' ' :: ' ' :: '-' :: '-' :: '>' :: ' ' :: (f.data ++ (':' :: (natReprL l ++ (':' :: natReprL c)))),
      []] : List (List Char))
      = ("error[E0001]: mismatched types".data
          :: [' ' :: ' ' :: '-' :: '-' :: '>' :: ' ' :: (f.data ++ (':' :: (natReprL l ++ (':' :: natReprL c))))])
        ++ [] :: [] := rfl
  rw [hshape2, processLines_block _ _ _ _ _ (by decide) (by simp) hparse]
  rw [digitsVal_natReprL, digitsVal_natReprL]
  rfl

/-- C3 witness: the statement at a concrete file, line and column. -/
theorem C3_single_error_block_witness :
    Cargo.run 1 ("error[E0001]: mismatched types\n  --> " ++ "src/main.rs" ++ ":" ++ natRepr 5 ++ ":" ++ natRepr 10 ++ "\n\n")
      = .ok ⟨(1 : Nat) == 0,
          [⟨DiagType.Error, some "E0001", "mismatched types", some "src/main.rs", some 5, some 10, none⟩], []⟩ :=
  C3_single_error_block 1 "src/main.rs" 5 10 (by decide) (by decide) (by decide) (by decide)

/- ------------------------------------------------------------------ -/
/- Helper lemmas: REGEX_CONTEXT fails on a non-numeric line field.     -/
/- ------------------------------------------------------------------ -/

theorem contextMatchHere_not_space {c : Char} {r : List Char} (hc : c ≠ ' ') :
    contextMatchHere (c :: r) = none := by
  unfold contextMatchHere
  split
  · next heq =>
    injection heq with h1 _
    exact absurd h1 hc
  · rfl

theorem contextMatchFrom_no_space (l : List Char) (h : ∀ ch ∈ l, ch ≠ ' ') :
    contextMatchFrom l = none := by
  induction l with
  | nil => rfl
  | cons c r ih =>
    simp [contextMatchFrom, contextMatchHere_not_space (h c (by simp)),
      ih (fun ch hm => h ch (by simp [hm]))]

theorem stripP_arrow_no_space (s : List Char) (h : ∀ ch ∈ s, ch ≠ ' ') :
    stripP "--> ".data s = none := by
  rcases s with _ | ⟨a, _ | ⟨b, _ | ⟨c, _ | ⟨d, t⟩⟩⟩⟩
  · rfl
  · by_cases ha : ('-' : Char) = a <;> simp [stripP, ha]
  · by_cases ha : ('-' : Char) = a <;> by_cases hb : ('-' : Char) = b <;>
      simp [stripP, ha, hb]
  · by_cases ha : ('-' : Char) = a <;> by_cases hb : ('-' : Char) = b <;>
      by_cases hc : ('>' : Char) = c <;> simp [stripP, ha, hb, hc]
  · have hd : d ≠ ' ' := h d (by simp)
    simp only [stripP]
    split_ifs with h1 h2 h3 h4
    · exact absurd h4.symm hd
    all_goals rfl

theorem ctxTail_bad (f X r : List Char)
    (hf : f ≠ []) (hfc : ∀ ch ∈ f, (ch != ':') = true)
    (hXnd : ∃ ch ∈ X, ch.isDigit = false)
    (hXc : ∀ ch ∈ X, ch ≠ ':') :
    ctxTail (f ++ (':' :: (X ++ (':' :: r)))) = none := by
  have h1 := spanCh_app (fun c => c != ':') f (':' :: (X ++ (':' :: r))) hfc
    (by rw [headFails_cons]; decide)
  have hX := spanCh_decomp Char.isDigit X
  have hqne : (spanCh Char.isDigit X).2 ≠ [] := by
    intro hq0
    obtain ⟨ch, hm, hnd⟩ := hXnd
    have hall : (spanCh Char.isDigit X).1 = X := by
      have := hX.1
      rwa [hq0, List.append_nil] at this
    have hm1 : ch ∈ (spanCh Char.isDigit X).1 := by rwa [hall]
    exact absurd (hX.2.1 ch hm1) (by simp [hnd])
  obtain ⟨qh, qt, hq⟩ := List.exists_cons_of_ne_nil hqne
  have hqh_nd : Char.isDigit qh = false := by
    have h2 := hX.2.2
    rwa [hq, headFails_cons] at h2
  have hqh_mem : qh ∈ X := by
    rw [← hX.1, hq]
    simp
  have hqh_nc : qh ≠ ':' := hXc qh hqh_mem
  have h2 : spanCh Char.isDigit (X ++ (':' :: r))
      = ((spanCh Char.isDigit X).1, qh :: (qt ++ (':' :: r))) := by
    have happ := spanCh_app Char.isDigit (spanCh Char.isDigit X).1 (qh :: (qt ++ (':' :: r)))
      hX.2.1 (by rw [headFails_cons]; exact hqh_nd)
    calc spanCh Char.isDigit (X ++ (':' :: r))
        = spanCh Char.isDigit ((spanCh Char.isDigit X).1 ++ (qh :: (qt ++ (':' :: r)))) := by
          conv_lhs => rw [← hX.1, hq]
          simp [List.append_assoc]
      _ = _ := happ
  obtain ⟨fh, ft, rfl⟩ := List.exists_cons_of_ne_nil hf
  simp only [List.cons_append] at h1
  simp [ctxTail, h1, h2]
  intro hp
  split
  · next heq =>
    injection heq with he _
    exact absurd he hqh_nc
  · rfl

theorem contextMatchFrom_badline (f X cds : List Char)
    (hf : f ≠ [])
    (hfok : ∀ ch ∈ f, (ch != ':') = true ∧ ch ≠ ' ')
    (hXnd : ∃ ch ∈ X, ch.isDigit = false)
    (hXok : ∀ ch ∈ X, ch ≠ ':' ∧ ch ≠ ' ')
    (hcd : ∀ ch ∈ cds, ch.isDigit = true) :
    contextMatchFrom
        (' ' :: ' ' :: '-' :: '-' :: '>' :: ' ' :: (f ++ (':' :: (X ++ (':' :: cds)))))
      = none := by
  have hbad : ctxTail (f ++ (':' :: (X ++ (':' :: cds)))) = none :=
    ctxTail_bad f X cds hf (fun ch hm => (hfok ch hm).1) hXnd (fun ch hm => (hXok ch hm).1)
  have hh0 : contextMatchHere
      (' ' :: ' ' :: '-' :: '-' :: '>' :: ' ' :: (f ++ (':' :: (X ++ (':' :: cds))))) = none := by
    rw [contextMatchHere_arrow, hbad]
  have hh1 : contextMatchHere
      (' ' :: '-' :: '-' :: '>' :: ' ' :: (f ++ (':' :: (X ++ (':' :: cds))))) = none := by
    have harr : contextMatchHere
        (' ' :: '-' :: '-' :: '>' :: ' ' :: (f ++ (':' :: (X ++ (':' :: cds)))))
        = ctxTail (f ++ (':' :: (X ++ (':' :: cds)))) := rfl
    rw [harr, hbad]
  have hnospace : ∀ ch ∈ f ++ (':' :: (X ++ (':' :: cds))), ch ≠ ' ' := by
    intro ch hm
    rcases List.mem_append.mp hm with hm | hm
    · exact (hfok ch hm).2
    · rcases List.mem_cons.mp hm with hm | hm
      · rw [hm]; decide
      · rcases List.mem_append.mp hm with hm | hm
        · exact (hXok ch hm).2
        · rcases List.mem_cons.mp hm with hm | hm
          · rw [hm]; decide
          · exact fun hsp => absurd (hcd ch hm) (by rw [hsp]; decide)
  have hh5 : contextMatchHere (' ' :: (f ++ (':' :: (X ++ (':' :: cds))))) = none := by
    obtain ⟨fh, ft, rfl⟩ := List.exists_cons_of_ne_nil hf
    have hfh : fh ≠ ' ' := (hfok fh (by simp)).2
    have hstep : contextMatchHere (' ' :: ((fh :: ft) ++ (':' :: (X ++ (':' :: cds)))))
        = (match stripP "--> ".data (dropSpaces ((fh :: ft) ++ (':' :: (X ++ (':' :: cds))))) with
           | some u => ctxTail u
           | none => none) := rfl
    rw [hstep, List.cons_append, dropSpaces, if_neg hfh]
    rw [← List.cons_append, stripP_arrow_no_space _ hnospace]
  have hhdash : ∀ r' : List Char, contextMatchHere ('-' :: r') = none :=
    fun r' => contextMatchHere_not_space (by decide)
  have hhgt : ∀ r' : List Char, contextMatchHere ('>' :: r') = none :=
    fun r' => contextMatchHere_not_space (by decide)
  have hfinal : contextMatchFrom (f ++ (':' :: (X ++ (':' :: cds)))) = none :=
    contextMatchFrom_no_space _ hnospace
  simp only [contextMatchFrom, hh0, hh1, hhdash, hhgt, hh5, hfinal]

theorem fromStrChars_ctx_err (H L : List Char)
    (t : DiagType) (code : Option (List Char)) (msg : List Char)
    (hnlH : '\n' ∉ H) (hnlL : '\n' ∉ L) (hLne : L ≠ [])
    (hh : headerMatchFrom H = some (t, code, msg))
    (hctx : contextMatchFrom L = none) :
    RustDiagnostic.fromStrChars (H ++ '\n' :: (L ++ ['\n']))
      = .err ("Invalid input: " ++ String.mk (H ++ '\n' :: (L ++ ['\n']))) := by
  have hs1 : splitAtNewline (H ++ '\n' :: (L ++ ['\n'])) = some (H, L ++ ['\n']) :=
    splitAtNewline_app H (L ++ ['\n']) hnlH
  have hs2 : splitAtNewline (L ++ '\n' :: []) = some (L, []) := splitAtNewline_app L [] hnlL
  have hsp : splitn3 (H ++ '\n' :: (L ++ ['\n'])) = [H, L, []] := by
    simp [splitn3, hs1, hs2]
  have hLe : L.isEmpty = false := by
    obtain ⟨a, L', rfl⟩ := List.exists_cons_of_ne_nil hLne
    rfl
  simp [RustDiagnostic.fromStrChars, hsp, hh, hLe, hctx]

theorem ctxTail_good_junk (f lds cds J : List Char)
    (hf : f ≠ []) (hfc : ∀ c ∈ f, (c != ':') = true)
    (hl : lds ≠ []) (hld : ∀ c ∈ lds, c.isDigit = true)
    (hc : cds ≠ []) (hcd : ∀ c ∈ cds, c.isDigit = true)
    (hJ : headFails Char.isDigit J) :
    ctxTail (f ++ (':' :: (lds ++ (':' :: (cds ++ J))))) = some (f, lds, cds) := by
  have h1 := spanCh_app (fun c => c != ':') f (':' :: (lds ++ (':' :: (cds ++ J)))) hfc
    (by rw [headFails_cons]; decide)
  have h2 := spanCh_app Char.isDigit lds (':' :: (cds ++ J)) hld (by rw [headFails_cons]; decide)
  have h3 := spanCh_app Char.isDigit cds J hcd hJ
  obtain ⟨a, f', rfl⟩ := List.exists_cons_of_ne_nil hf
  obtain ⟨b, l', rfl⟩ := List.exists_cons_of_ne_nil hl
  obtain ⟨c0, c', rfl⟩ := List.exists_cons_of_ne_nil hc
  simp only [List.cons_append] at h1 h2 h3
  simp [ctxTail, h1, h2, h3]

theorem ctxTail_bad_col (f lds Y : List Char)
    (hf : f ≠ []) (hfc : ∀ c ∈ f, (c != ':') = true)
    (hl : lds ≠ []) (hld : ∀ c ∈ lds, c.isDigit = true)
    (hY : headFails Char.isDigit Y) :
    ctxTail (f ++ (':' :: (lds ++ (':' :: Y)))) = none := by
  have h1 := spanCh_app (fun c => c != ':') f (':' :: (lds ++ (':' :: Y))) hfc
    (by rw [headFails_cons]; decide)
  have h2 := spanCh_app Char.isDigit lds (':' :: Y) hld (by rw [headFails_cons]; decide)
  have h3 : spanCh Char.isDigit Y = ([], Y) := by
    cases Y with
    | nil => rfl
    | cons y t =>
      rw [headFails_cons] at hY
      simp [spanCh, hY]
  obtain ⟨a, f', rfl⟩ := List.exists_cons_of_ne_nil hf
  obtain ⟨b, l', rfl⟩ := List.exists_cons_of_ne_nil hl
  simp only [List.cons_append] at h1 h2
  simp [ctxTail, h1, h2, h3]

theorem contextMatchFrom_badcol (f lds Y : List Char)
    (hf : f ≠ [])
    (hfok : ∀ ch ∈ f, (ch != ':') = true ∧ ch ≠ ' ')
    (hl : lds ≠ []) (hld : ∀ c ∈ lds, c.isDigit = true)
    (hY : headFails Char.isDigit Y)
    (hYsp : ∀ ch ∈ Y, ch ≠ ' ') :
    contextMatchFrom
        (' ' :: ' ' :: '-' :: '-' :: '>' :: ' ' :: (f ++ (':' :: (lds ++ (':' :: Y)))))
      = none := by
  have hbad : ctxTail (f ++ (':' :: (lds ++ (':' :: Y)))) = none :=
    ctxTail_bad_col f lds Y hf (fun ch hm => (hfok ch hm).1) hl hld hY
  have hh0 : contextMatchHere
      (' ' :: ' ' :: '-' :: '-' :: '>' :: ' ' :: (f ++ (':' :: (lds ++ (':' :: Y))))) = none := by
    rw [contextMatchHere_arrow, hbad]
  have hh1 : contextMatchHere
      (' ' :: '-' :: '-' :: '>' :: ' ' :: (f ++ (':' :: (lds ++ (':' :: Y))))) = none := by
    have harr : contextMatchHere
        (' ' :: '-' :: '-' :: '>' :: ' ' :: (f ++ (':' :: (lds ++ (':' :: Y)))))
        = ctxTail (f ++ (':' :: (lds ++ (':' :: Y)))) := rfl
    rw [harr, hbad]
  have hnospace : ∀ ch ∈ f ++ (':' :: (lds ++ (':' :: Y))), ch ≠ ' ' := by
    intro ch hm
    rcases List.mem_append.mp hm with hm | hm
    · exact (hfok ch hm).2
    · rcases List.mem_cons.mp hm with hm | hm
      · rw [hm]; decide
      · rcases List.mem_append.mp hm with hm | hm
        · exact fun hsp => absurd (hld ch hm) (by rw [hsp]; decide)
        · rcases List.mem_cons.mp hm with hm | hm
          · rw [hm]; decide
          · exact hYsp ch hm
  have hh5 : contextMatchHere (' ' :: (f ++ (':' :: (lds ++ (':' :: Y))))) = none := by
    obtain ⟨fh, ft, rfl⟩ := List.exists_cons_of_ne_nil hf
    have hfh : fh ≠ ' ' := (hfok fh (by simp)).2
    have hstep : contextMatchHere (' ' :: ((fh :: ft) ++ (':' :: (lds ++ (':' :: Y)))))
        = (match stripP "--> ".data (dropSpaces ((fh :: ft) ++ (':' :: (lds ++ (':' :: Y))))) with
           | some u => ctxTail u
           | none => none) := rfl
    rw [hstep, List.cons_append, dropSpaces, if_neg hfh]
    rw [← List.cons_append, stripP_arrow_no_space _ hnospace]
  have hhdash : ∀ r' : List Char, contextMatchHere ('-' :: r') = none :=
    fun r' => contextMatchHere_not_space (by decide)
  have hhgt : ∀ r' : List Char, contextMatchHere ('>' :: r') = none :=
    fun r' => contextMatchHere_not_space (by decide)
  have hfinal : contextMatchFrom (f ++ (':' :: (lds ++ (':' :: Y)))) = none :=
    contextMatchFrom_no_space _ hnospace
  simp only [contextMatchFrom, hh0, hh1, hhdash, hhgt, hh5, hfinal]

/-- C5 counterexample: the block whose location line puts the non-numeric
value 3x where the column number is expected parses successfully, to an
Ok diagnostic with column 3 (REGEX_CONTEXT is unanchored at its end, so
the leading digit run is captured and the junk after it is ignored),
refuting the claim that every non-numeric column value is a ParseError. -/
theorem C5_counterexample :
    RustDiagnostic.fromStrChars "error: m\n  --> f:12:3x\n".data
      = PResult.ok ⟨DiagType.Error, none, "m", some "f", some 12, some 3, none⟩ := by
  decide

/-- C5 (amended): a non-numeric value in the line-number position, and a
column field that does not begin with a digit, each make the block fail
with an Err (a recoverable error result, not a partial diagnostic and not
a crash); digit line and column fields in the u32 range are parsed as the
corresponding unsigned integers; but because REGEX_CONTEXT is unanchored
at its end, a column field that begins with digits parses successfully,
the leading digit run becoming the column and the rest being ignored. -/
theorem C5_nonnumeric_location (M f X Y J : List Char) (l c : Nat)
    (hM : M.all (fun ch => ch != '\n') = true)
    (hf : f ≠ [])
    (hfok : f.all (fun ch => ch != ':' && ch != ' ' && ch != '\n') = true)
    (hX : X.any (fun ch => !ch.isDigit) = true)
    (hXok : X.all (fun ch => ch != ':' && ch != ' ' && ch != '\n') = true)
    (hY : headFails Char.isDigit Y)
    (hYok : Y.all (fun ch => ch != ' ' && ch != '\n') = true)
    (hJ : headFails Char.isDigit J)
    (hJok : J.all (fun ch => ch != '\n') = true)
    (hl : l < 4294967296) (hc : c < 4294967296) :
    RustDiagnostic.fromStrChars
        (("error: ".data ++ M) ++ '\n' :: ((' ' :: ' ' :: '-' :: '-' :: '>' :: ' ' :: (f ++ (':' :: (X ++ (':' :: natReprL c))))) ++ ['\n']))
      = .err ("Invalid input: "
          ++ String.mk (("error: ".data ++ M) ++ '\n' :: ((' ' :: ' ' :: '-' :: '-' :: '>' :: ' ' :: (f ++ (':' :: (X ++ (':' :: natReprL c))))) ++ ['\n'])))
    ∧ RustDiagnostic.fromStrChars
        (("error: ".data ++ M) ++ '\n' :: ((' ' :: ' ' :: '-' :: '-' :: '>' :: ' ' :: (f ++ (':' :: (natReprL l ++ (':' :: Y))))) ++ ['\n']))
      = .err ("Invalid input: "
          ++ String.mk (("error: ".data ++ M) ++ '\n' :: ((' ' :: ' ' :: '-' :: '-' :: '>' :: ' ' :: (f ++ (':' :: (natReprL l ++ (':' :: Y))))) ++ ['\n'])))
    ∧ RustDiagnostic.fromStrChars
        (("error: ".data ++ M) ++ '\n' :: ((' ' :: ' ' :: '-' :: '-' :: '>' :: ' ' :: (f ++ (':' :: (natReprL l ++ (':' :: natReprL c))))) ++ ['\n']))
      = .ok ⟨DiagType.Error, none, ⟨M⟩, some ⟨f⟩, some l, some c, none⟩
    ∧ RustDiagnostic.fromStrChars
        (("error: ".data ++ M) ++ '\n' :: ((' ' :: ' ' :: '-' :: '-' :: '>' :: ' ' :: (f ++ (':' :: (natReprL l ++ (':' :: (natReprL c ++ J)))))) ++ ['\n']))
      = .ok ⟨DiagType.Error, none, ⟨M⟩, some ⟨f⟩, some l, some c, none⟩ := by
  simp only [List.all_eq_true, Bool.and_eq_true, bne_iff_ne, ne_eq] at hM hfok hXok hYok hJok
  have hMnl : '\n' ∉ M := fun hm => (hM _ hm) rfl
  have hfc : ∀ ch ∈ f, (ch != ':') = true := fun ch hm => by
    simpa using (hfok ch hm).1.1
  have hfsp : ∀ ch ∈ f, ch ≠ ' ' := fun ch hm => (hfok ch hm).1.2
  have hfnl : '\n' ∉ f := fun hm => (hfok _ hm).2 rfl
  have hXc : ∀ ch ∈ X, ch ≠ ':' := fun ch hm => (hXok ch hm).1.1
  have hXsp : ∀ ch ∈ X, ch ≠ ' ' := fun ch hm => (hXok ch hm).1.2
  have hXnl : '\n' ∉ X := fun hm => (hXok _ hm).2 rfl
  have hXnd : ∃ ch ∈ X, ch.isDigit = false := by
    obtain ⟨ch, hm, hd⟩ := List.any_eq_true.mp hX
    exact ⟨ch, hm, by simpa using hd⟩
  have hYsp : ∀ ch ∈ Y, ch ≠ ' ' := fun ch hm => (hYok ch hm).1
  have hYnl : '\n' ∉ Y := fun hm => (hYok _ hm).2 rfl
  have hJnl : '\n' ∉ J := fun hm => (hJok _ hm) rfl
  have hdl : '\n' ∉ natReprL l := fun hm => isDigit_ne_newline (natReprL_all_digits l _ hm) rfl
  have hdc : '\n' ∉ natReprL c := fun hm => isDigit_ne_newline (natReprL_all_digits c _ hm) rfl
  have hhsplit : "error: ".data ++ M = kindChars DiagType.Error ++ ':' :: ' ' :: M := by
    have : "error: ".data = "error".data ++ [':', ' '] := by decide
    simp [this, kindChars]
  have hH : headerMatchFrom ("error: ".data ++ M) = some (DiagType.Error, none, M) := by
    rw [hhsplit]
    exact headerMatchFrom_of_here _ _ (by simp [kindChars]) (headerMatchHere_nocode _ M)
  have hnlH : '\n' ∉ "error: ".data ++ M := by
    simp [hMnl]
  have hlv : digitsVal (natReprL l) ≤ 4294967295 := by rw [digitsVal_natReprL]; omega
  have hcv : digitsVal (natReprL c) ≤ 4294967295 := by rw [digitsVal_natReprL]; omega
  refine ⟨?_, ?_, ?_, ?_⟩
  · have hctx : contextMatchFrom
        (' ' :: ' ' :: '-' :: '-' :: '>' :: ' ' :: (f ++ (':' :: (X ++ (':' :: natReprL c))))) = none :=
      contextMatchFrom_badline f X (natReprL c) hf
        (fun ch hm => ⟨hfc ch hm, hfsp ch hm⟩) hXnd
        (fun ch hm => ⟨hXc ch hm, hXsp ch hm⟩)
        (natReprL_all_digits c)
    have hnlL : '\n' ∉ (' ' :: ' ' :: '-' :: '-' :: '>' :: ' ' :: (f ++ (':' :: (X ++ (':' :: natReprL c))))) := by
      simp [hfnl, hXnl, hdc]
    exact fromStrChars_ctx_err _ _ DiagType.Error none M hnlH hnlL (by simp) hH hctx
  · have hctx : contextMatchFrom
        (' ' :: ' ' :: '-' :: '-' :: '>' :: ' ' :: (f ++ (':' :: (natReprL l ++ (':' :: Y))))) = none :=
      contextMatchFrom_badcol f (natReprL l) Y hf
        (fun ch hm => ⟨hfc ch hm, hfsp ch hm⟩)
        (natReprL_ne_nil l) (natReprL_all_digits l) hY hYsp
    have hnlL : '\n' ∉ (' ' :: ' ' :: '-' :: '-' :: '>' :: ' ' :: (f ++ (':' :: (natReprL l ++ (':' :: Y))))) := by
      simp [hfnl, hdl, hYnl]
    exact fromStrChars_ctx_err _ _ DiagType.Error none M hnlH hnlL (by simp) hH hctx
  · have hctx : contextMatchFrom
        (' ' :: ' ' :: '-' :: '-' :: '>' :: ' ' :: (f ++ (':' :: (natReprL l ++ (':' :: natReprL c)))))
          = some (f, natReprL l, natReprL c) :=
      contextMatchFrom_of_good _ _
        (ctxTail_good f (natReprL l) (natReprL c) hf hfc
          (natReprL_ne_nil l) (natReprL_all_digits l)
          (natReprL_ne_nil c) (natReprL_all_digits c))
    have hnlL : '\n' ∉ (' ' :: ' ' :: '-' :: '-' :: '>' :: ' ' :: (f ++ (':' :: (natReprL l ++ (':' :: natReprL c))))) := by
      simp [hfnl, hdl, hdc]
    have := fromStrChars_header_loc _ _ DiagType.Error none M f (natReprL l) (natReprL c)
      hnlH hnlL (by simp) hH hctx hlv hcv
    rw [this, digitsVal_natReprL, digitsVal_natReprL]
    rfl
  · have hctx : contextMatchFrom
        (' ' :: ' ' :: '-' :: '-' :: '>' :: ' ' :: (f ++ (':' :: (natReprL l ++ (':' :: (natReprL c ++ J))))))
          = some (f, natReprL l, natReprL c) :=
      contextMatchFrom_of_good _ _
        (ctxTail_good_junk f (natReprL l) (natReprL c) J hf hfc
          (natReprL_ne_nil l) (natReprL_all_digits l)
          (natReprL_ne_nil c) (natReprL_all_digits c) hJ)
    have hnlL : '\n' ∉ (' ' :: ' ' :: '-' :: '-' :: '>' :: ' ' :: (f ++ (':' :: (natReprL l ++ (':' :: (natReprL c ++ J)))))) := by
      simp [hfnl, hdl, hdc, hJnl]
    have := fromStrChars_header_loc _ _ DiagType.Error none M f (natReprL l) (natReprL c)
      hnlH hnlL (by simp) hH hctx hlv hcv
    rw [this, digitsVal_natReprL, digitsVal_natReprL]
    rfl

/-- C5 witness: the alphabetic line field abc and the column field x7 are
rejected with an Err, the numeric fields 3 and 7 parse to the numbers 3
and 7, and the column field 7x parses to column 7 with the junk ignored. -/
theorem C5_nonnumeric_location_witness :
    RustDiagnostic.fromStrChars
        (("error: ".data ++ "m".data) ++ '\n' :: ((' ' :: ' ' :: '-' :: '-' :: '>' :: ' ' :: ("f".data ++ (':' :: ("abc".data ++ (':' :: natReprL 7))))) ++ ['\n']))
      = .err ("Invalid input: "
          ++ String.mk (("error: ".data ++ "m".data) ++ '\n' :: ((' ' :: ' ' :: '-' :: '-' :: '>' :: ' ' :: ("f".data ++ (':' :: ("abc".data ++ (':' :: natReprL 7))))) ++ ['\n'])))
    ∧ RustDiagnostic.fromStrChars
        (("error: ".data ++ "m".data) ++ '\n' :: ((' ' :: ' ' :: '-' :: '-' :: '>' :: ' ' :: ("f".data ++ (':' :: (natReprL 3 ++ (':' :: "x7".data))))) ++ ['\n']))
      = .err ("Invalid input: "
          ++ String.mk (("error: ".data ++ "m".data) ++ '\n' :: ((' ' :: ' ' :: '-' :: '-' :: '>' :: ' ' :: ("f".data ++ (':' :: (natReprL 3 ++ (':' :: "x7".data))))) ++ ['\n'])))
    ∧ RustDiagnostic.fromStrChars
        (("error: ".data ++ "m".data) ++ '\n' :: ((' ' :: ' ' :: '-' :: '-' :: '>' :: ' ' :: ("f".data ++ (':' :: (natReprL 3 ++ (':' :: natReprL 7))))) ++ ['\n']))
      = .ok ⟨DiagType.Error, none, ⟨"m".data⟩, some ⟨"f".data⟩, some 3, some 7, none⟩
    ∧ RustDiagnostic.fromStrChars
        (("error: ".data ++ "m".data) ++ '\n' :: ((' ' :: ' ' :: '-' :: '-' :: '>' :: ' ' :: ("f".data ++ (':' :: (natReprL 3 ++ (':' :: (natReprL 7 ++ "x".data)))))) ++ ['\n']))
      = .ok ⟨DiagType.Error, none, ⟨"m".data⟩, some ⟨"f".data⟩, some 3, some 7, none⟩ :=
  C5_nonnumeric_location "m".data "f".data "abc".data "x7".data "x".data 3 7
    (by decide) (by decide) (by decide) (by decide) (by decide)
    (by show Char.isDigit 'x' = false; decide) (by decide)
    (by show Char.isDigit 'x' = false; decide) (by decide)
    (by decide) (by decide)

/- ------------------------------------------------------------------ -/
/- Watcher claims.                                                     -/
/- ------------------------------------------------------------------ -/

/-- C7: once the quit flag is set, every trigger (on_manual, and on_update
which delegates to it) observes the flag before invoking the runner and
returns Ok false without running and without emitting a result; a trigger
that observed the flag unset (a run already under way when try_stop came)
completes and emits its one result; try_stop sets the flag and nothing
ever clears it (start preserves it). -/
theorem C7_stop_blocks_runs :
    (∀ (s : WatchState) (r : Except String CompileResult), s.quit = true →
        Watcher.on_manual s r = (false, [], .ok false)
          ∧ Watcher.on_update s r = (false, [], .ok false)) ∧
    (∀ (s : WatchState) (res : CompileResult), s.quit = false →
        Watcher.on_manual s (.ok res) = (true, [res], .ok true)) ∧
    (∀ s : WatchState, (Watcher.try_stop s).quit = true) ∧
    (∀ (s : WatchState) (h : Nat), (Watcher.start s h).quit = s.quit) := by
  refine ⟨fun s r h => ⟨?_, ?_⟩, fun s res h => ?_, fun s => rfl, fun s h => rfl⟩ <;>
    simp [Watcher.on_manual, Watcher.on_update, h]

/-- C7 witness: a stopped state refuses a trigger; an unstopped state runs
and emits. -/
theorem C7_stop_blocks_runs_witness :
    Watcher.on_manual ⟨"r", "c", true, 0, some 1⟩ (.error "boom") = (false, [], .ok false) ∧
    Watcher.on_manual ⟨"r", "c", false, 0, some 1⟩ (.ok ⟨true, [], []⟩)
      = (true, [⟨true, [], []⟩], .ok true) :=
  ⟨(C7_stop_blocks_runs.1 _ _ rfl).1, C7_stop_blocks_runs.2.1 _ _ rfl⟩

/-- C6 counterexample: on a failed run the handler sends nothing to the
sink and returns the error to the watch library (wrapped as an Io error),
so the error is not visible to the sink and is thrown across the watch
loop boundary, contrary to the claim. -/
theorem C6_counterexample :
    Watcher.on_manual ⟨"root", "cargo check", false, 0, some 1⟩ (.error "boom")
      = (true, [], .ioError "boom") := rfl

/-- C6 (amended): when a run fails with an ExecutionError, on_manual emits
nothing to the sink and returns the Io-wrapped error to the external watch
library; whether the worker survives is decided by that library (and
Watcher::start unwraps the result of watchexec::watch, so a propagated
error panics the worker thread). -/
theorem C6_error_not_sent (s : WatchState) (e : String) (h : s.quit = false) :
    Watcher.on_manual s (.error e) = (true, [], .ioError e) := by
  simp [Watcher.on_manual, h]

/-- C6 witness: the amended statement at a concrete state and error. -/
theorem C6_error_not_sent_witness :
    Watcher.on_manual ⟨"r", "c", false, 3, none⟩ (.error "parse failure")
      = (true, [], .ioError "parse failure") :=
  C6_error_not_sent _ _ rfl

/-- C8 counterexample: Watcher::new succeeds on a root path that does not
exist, instead of failing with a ConfigError. -/
theorem C8_counterexample :
    Watcher.new "/path/that/does/not/exist" "cargo check" 0
      = .ok ⟨"/path/that/does/not/exist", "cargo check", false, 0, none⟩ := rfl

/-- C8 (amended): Watcher::new performs no validation of the root path and
returns Ok for every input, and start returns nothing; a bad root can
therefore only fail later inside the spawned worker, never synchronously
at the control surface. -/
theorem C8_new_always_ok (root cmd : String) (tx : Nat) :
    Watcher.new root cmd tx = .ok ⟨root, cmd, false, tx, none⟩ := rfl

/-- C9 counterexample: try_stop leaves the worker handle in place; it is
not cleared to absent as the claim states. -/
theorem C9_counterexample :
    (Watcher.try_stop ⟨"r", "c", false, 0, some 7⟩).runner ≠ none := by
  simp [Watcher.try_stop]

/-- C9 (amended): start overwrites only the runner slot with the new
handle, and try_stop changes only the quit flag; in particular the worker
handle is never cleared by try_stop and every other field of the shared
state is untouched by both. -/
theorem C9_stop_frame (s : WatchState) (h : Nat) :
    Watcher.try_stop s = ⟨s.project_root, s.command, true, s.tx, s.runner⟩ ∧
    Watcher.start s h = ⟨s.project_root, s.command, s.quit, s.tx, some h⟩ :=
  ⟨rfl, rfl⟩
